import Mathlib

/-!
Shallow embedding of the cross-validation core of the emer2gent-covid19
repository: `RepeatedStratifiedGroupKFoldOrchestrator`,
`_StratifiedGroupKFoldOrchestrator` and `_ABTDataset` from
`src/python/pkg/trent/abt/torch_data.py` and
`src/python/pkg/trent/abt/sklearn_cv_data.py`.

Rows of the ABT frame are embedded as records over exact rationals; a
missing (NaN) value in a nullable numeric column is `Option.none`.  The
square-root function applied to the weight-source column is abstracted as a
function parameter `s`, constrained by `IsSqrtOn` where a theorem needs it
to behave as a square root, so that every definition stays computable.
-/

/-- One row of the ABT frame.  `county_fip` is the group key, `state_code`
the stratum key, `acs_pop_total` the weight-source column; the remaining
fields are the feature and target columns read by `_ABTDataset`. -/
structure Row where
  county_fip : Nat
  state_code : Nat
  acs_pop_total : ℚ
  travel_limit : Option ℚ
  stay_home : Option ℚ
  educational_fac : Option ℚ
  phase_1 : Option ℚ
  phase_2 : Option ℚ
  phase_3 : Option ℚ
  tmpf_mean : Option ℚ
  relh_mean : Option ℚ
  male_proportion : Option ℚ
  percentage_white : Option ℚ
  young_age : Option ℚ
  mid_age : Option ℚ
  old_age : Option ℚ
  infection_penetration : Option ℚ
  infection_momentum : Option ℚ
  unemployment_rate : Option ℚ
  unemployment_penetration : Option ℚ
  infection_target : Option ℚ
  unemployment_target : Option ℚ
deriving DecidableEq, Repr

/-- The `["county_fip", "state_code"]` pair of a row: the group identity
used by the fold lookup. -/
def rowKey (r : Row) : Nat × Nat := (r.county_fip, r.state_code)

/-- Helper for `dropDuplicates`: keep the first occurrence of each pair,
skipping pairs already seen. -/
def dropDupsAux (seen : List (Nat × Nat)) : List (Nat × Nat) → List (Nat × Nat)
  | [] => []
  | p :: ps => if p ∈ seen then dropDupsAux seen ps else p :: dropDupsAux (p :: seen) ps

/-- Embeds `data.loc[:, ["county_fip", "state_code"]].drop_duplicates()`:
the distinct key pairs in first-occurrence order. -/
def dropDuplicates (l : List (Nat × Nat)) : List (Nat × Nat) :=
  dropDupsAux [] l

/-- The lookup table of `_StratifiedGroupKFoldOrchestrator.__init__`. -/
def lookupPairs (rows : List Row) : List (Nat × Nat) :=
  dropDuplicates (rows.map rowKey)

/-- Index of the first occurrence of `p` in a list of pairs. -/
def idxIn (p : Nat × Nat) : List (Nat × Nat) → Nat
  | [] => 0
  | q :: qs => if q = p then 0 else idxIn p qs + 1

/-- Embeds `lookup.groupby("state_code")["county_fip"].transform(lambda c:
np.arange(len(c)) % folds + 1)` read off at pair `p`: the position of `p`
among the lookup pairs of its own stratum, modulo the fold count, plus 1. -/
def foldOf (K : Nat) (lookup : List (Nat × Nat)) (p : Nat × Nat) : Nat :=
  idxIn p (lookup.filter (fun q => decide (q.2 = p.2))) % K + 1

/-- Embeds `data.merge(lookup, on=["county_fip", "state_code"])`: every row
paired with the `__fold` number of its key.  The merge preserves the left
row order and row count because the lookup holds each key exactly once. -/
def mergedData (K : Nat) (rows : List Row) : List (Row × Nat) :=
  rows.map (fun r => (r, foldOf K (lookupPairs rows) (rowKey r)))

/-- Embeds `set(range(1, 1 + self.folds)).difference([ifold])` as the list
of fold numbers `1..K` other than `ifold`. -/
def trainFoldSet (K ifold : Nat) : List Nat :=
  ((List.range K).map (· + 1)).filter (fun f => decide (f ≠ ifold))

/-- Test subset of fold `ifold`: rows whose `__fold` is in `[ifold]`. -/
def testRows (K : Nat) (rows : List Row) (ifold : Nat) : List (Row × Nat) :=
  (mergedData K rows).filter (fun rf => decide (rf.2 = ifold))

/-- Train subset of fold `ifold`: rows whose `__fold` is in `train_folds`. -/
def trainRows (K : Nat) (rows : List Row) (ifold : Nat) : List (Row × Nat) :=
  (mergedData K rows).filter (fun rf => decide (rf.2 ∈ trainFoldSet K ifold))

/-- Embeds `_StratifiedGroupKFoldOrchestrator.__iter__`: the (train, test)
row subsets for `ifold` running over `1..K` in order. -/
def kfoldSplits (K : Nat) (rows : List Row) : List (List (Row × Nat) × List (Row × Nat)) :=
  (List.range K).map (fun j => (trainRows K rows (j + 1), testRows K rows (j + 1)))

/-- Modelled from the spec: the Python library call
`random.sample(range(pool), k)` (the repository only calls it, its body is
not in the repository) draws `k` distinct values from `0..pool-1`,
deterministically for a fixed seed of the global generator, and raises
`ValueError` when `k` exceeds the population size. -/
def randomSample (seed pool k : Nat) : Option (List Nat) :=
  if k ≤ pool then some ((List.range k).map (fun i => (seed + i) % pool)) else none

/-- Modelled from the spec: the pandas library call
`data.sample(frac=1, random_state=rs)` (not repository code) returns a
permutation of the rows determined by `rs` alone. -/
def pandasShuffle (rs : Nat) (rows : List Row) : List Row :=
  rows.rotate rs

/-- State of `RepeatedStratifiedGroupKFoldOrchestrator` after `__init__`:
the loaded frame and the `folds`, `repeats` and `seed` parameters. -/
structure Orchestrator where
  data : List Row
  folds : Nat
  repeats : Nat
  seed : Nat
deriving DecidableEq, Repr

/-- Embeds `RepeatedStratifiedGroupKFoldOrchestrator.__init__`: the fields
are stored as given, with no validation of any of them. -/
def mkOrchestrator (data : List Row) (folds repeats seed : Nat) : Orchestrator :=
  { data := data, folds := folds, repeats := repeats, seed := seed }

/-- Embeds the body of `RepeatedStratifiedGroupKFoldOrchestrator.__iter__`
up to the per-repeat shuffles: the `repeats` sub-seeds are drawn up front
by `random.sample(range(1000), self.repeats)` after reseeding, and repeat
`i` shuffles the frame with sub-seed `random_states[i]`.  `none` models the
`ValueError` raised before any repeat is yielded. -/
def orchestratorShuffles (o : Orchestrator) : Option (List (List Row)) :=
  (randomSample o.seed 1000 o.repeats).map (fun seeds =>
    (List.range o.repeats).map (fun i => pandasShuffle (seeds.getD i 0) o.data))

/-- Full iteration of the outer orchestrator: each repeat's shuffled frame
is handed to `_StratifiedGroupKFoldOrchestrator`, whose iteration yields
the per-fold (train, test) row subsets. -/
def orchestrate (o : Orchestrator) :
    Option (List (List (List (Row × Nat) × List (Row × Nat)))) :=
  (orchestratorShuffles o).map (fun shuffles =>
    shuffles.map (fun d => kfoldSplits o.folds d))

/-- Embeds `self.data.loc[self.data.infection_momentum.isna(),
"infection_momentum"] = 1` at one row: a missing momentum becomes `1`,
a present momentum and every other column are untouched. -/
def imputeRow (r : Row) : Row :=
  { r with infection_momentum := some (r.infection_momentum.getD 1) }

/-- The feature columns of `xmat`, in the declared order of
`_ABTDataset.__init__`. -/
def featureRow (r : Row) : List (Option ℚ) :=
  [r.travel_limit, r.stay_home, r.educational_fac, r.phase_1, r.phase_2,
   r.phase_3, r.tmpf_mean, r.relh_mean, r.male_proportion,
   r.percentage_white, r.young_age, r.mid_age, r.old_age,
   r.infection_penetration, r.infection_momentum, r.unemployment_rate,
   r.unemployment_penetration]

/-- State of `_ABTDataset` after `__init__`: the imputed frame and the
pre-allocated `xmat`, `ymat` and `zmat` tensors. -/
structure ABTDataset where
  data : List Row
  xmat : List (List (Option ℚ))
  ymat : List (Option ℚ × Option ℚ)
  zmat : List ℚ
deriving DecidableEq, Repr

/-- Embeds `_ABTDataset.__init__` of `torch_data.py`.  `s` stands for the
square-root function.  The weight tensor is
`torch.sqrt(pop) / torch.sqrt(torch.sum(pop))`: each entry is
`s pop_i / s (sum of pop)` — the square root of the un-rooted sum in the
denominator. -/
def mkABTDatasetTorch (s : ℚ → ℚ) (rows : List Row) : ABTDataset :=
  let d := rows.map imputeRow
  { data := d
    zmat := d.map (fun r => s r.acs_pop_total / s ((d.map Row.acs_pop_total).sum))
    ymat := d.map (fun r => (r.infection_target, r.unemployment_target))
    xmat := d.map featureRow }

/-- Embeds `_ABTDataset.__init__` of `sklearn_cv_data.py`.  The weight
vector is `np.sqrt(pop) / np.sum(np.sqrt(pop))`: each entry is
`s pop_i / (sum of s pop_j)`. -/
def mkABTDatasetSklearn (s : ℚ → ℚ) (rows : List Row) : ABTDataset :=
  let d := rows.map imputeRow
  { data := d
    zmat := d.map (fun r => s r.acs_pop_total / ((d.map (fun q => s q.acs_pop_total)).sum))
    ymat := d.map (fun r => (r.infection_target, r.unemployment_target))
    xmat := d.map featureRow }

/-- Embeds `_ABTDataset.__len__`: the number of rows of the frame. -/
def ABTDataset.len (ds : ABTDataset) : Nat :=
  ds.data.length

/-- Embeds `_ABTDataset.__getitem__` of `torch_data.py`:
`(self.xmat[i], self.ymat[i], self.zmat[i])`, the triple of row `i`. -/
def ABTDataset.getitemTorch (ds : ABTDataset) (i : Nat) :
    List (Option ℚ) × (Option ℚ × Option ℚ) × ℚ :=
  (ds.xmat.getD i [], ds.ymat.getD i (none, none), ds.zmat.getD i 0)

/-- Embeds `_ABTDataset.__getitem__` of `sklearn_cv_data.py`:
`(self.xmat, self.ymat, self.zmat)` — the whole matrices, for every `i`. -/
def ABTDataset.getitemSklearn (ds : ABTDataset) (_i : Nat) :
    List (List (Option ℚ)) × List (Option ℚ × Option ℚ) × List ℚ :=
  (ds.xmat, ds.ymat, ds.zmat)

/-- The function `s` behaves as the non-negative square root on every value
in `xs`. -/
def IsSqrtOn (s : ℚ → ℚ) (xs : List ℚ) : Prop :=
  ∀ x ∈ xs, 0 ≤ s x ∧ s x * s x = x

/-- Process-global generator state touched by
`RepeatedStratifiedGroupKFoldOrchestrator.__iter__` in `torch_data.py`:
the torch, numpy and python `random` seeds. -/
structure GlobalRNG where
  torchSeed : Option Nat
  npSeed : Option Nat
  pySeed : Option Nat
deriving DecidableEq, Repr

/-- Embeds the first statements of the torch orchestrator's `__iter__`:
`torch.manual_seed(self.seed)`, `np.random.seed(self.seed)` and
`random.seed(self.seed)` overwrite the process-global generator state with
the orchestrator's seed, whatever it was before. -/
def orchestratorIterGlobals (o : Orchestrator) (_g : GlobalRNG) : GlobalRNG :=
  { torchSeed := some o.seed, npSeed := some o.seed, pySeed := some o.seed }

/-- Embeds the in-place write of `_ABTDataset.__init__` on the frame it was
given: after construction the caller's frame holds the imputed momentum
column. -/
def abtFrameAfterInit (rows : List Row) : List Row :=
  rows.map imputeRow

/-- A concrete row with the given keys, population and momentum; every
other nullable column is missing. -/
def sampleRow (c st : Nat) (pop : ℚ) (mom : Option ℚ) : Row :=
  { county_fip := c, state_code := st, acs_pop_total := pop,
    travel_limit := none, stay_home := none, educational_fac := none,
    phase_1 := none, phase_2 := none, phase_3 := none, tmpf_mean := none,
    relh_mean := none, male_proportion := none, percentage_white := none,
    young_age := none, mid_age := none, old_age := none,
    infection_penetration := none, infection_momentum := mom,
    unemployment_rate := none, unemployment_penetration := none,
    infection_target := none, unemployment_target := none }

/-- A square-root table adequate for the concrete weight computations used
below: correct at 9, 16 and 25. -/
def sqrtTable (x : ℚ) : ℚ :=
  if x = 9 then 3 else if x = 16 then 4 else if x = 25 then 5 else 0

/-- A concrete two-row frame: two counties of one state, with populations
9 and 16 and missing momentum. -/
def twoRowFrame : List Row :=
  [sampleRow 1 1 9 none, sampleRow 2 1 16 none]

lemma mem_dropDupsAux {p : Nat × Nat} :
    ∀ {seen l : List (Nat × Nat)}, p ∈ dropDupsAux seen l ↔ p ∈ l ∧ p ∉ seen := by
  intro seen l
  induction l generalizing seen with
  | nil => simp [dropDupsAux]
  | cons a t ih =>
    by_cases h : a ∈ seen
    · simp only [dropDupsAux, if_pos h, ih, List.mem_cons]
      constructor
      · rintro ⟨hp, hs⟩; exact ⟨Or.inr hp, hs⟩
      · rintro ⟨hp | hp, hs⟩
        · exact absurd (hp ▸ h) hs
        · exact ⟨hp, hs⟩
    · by_cases hpa : p = a
      · subst hpa
        simp [dropDupsAux, if_neg h, ih, h]
      · simp [dropDupsAux, if_neg h, ih, List.mem_cons, hpa]

lemma nodup_dropDupsAux : ∀ (seen l : List (Nat × Nat)), (dropDupsAux seen l).Nodup := by
  intro seen l
  induction l generalizing seen with
  | nil => simp [dropDupsAux]
  | cons a t ih =>
    by_cases h : a ∈ seen
    · simpa [dropDupsAux, if_pos h] using ih seen
    · simp only [dropDupsAux, if_neg h]
      exact List.Nodup.cons
        (fun hmem => (mem_dropDupsAux.mp hmem).2 (List.mem_cons_self a seen))
        (ih (a :: seen))

lemma nodup_lookupPairs (rows : List Row) : (lookupPairs rows).Nodup :=
  nodup_dropDupsAux [] (rows.map rowKey)

lemma mem_mergedData {K : Nat} {rows : List Row} {rf : Row × Nat}
    (h : rf ∈ mergedData K rows) :
    rf.1 ∈ rows ∧ rf.2 = foldOf K (lookupPairs rows) (rowKey rf.1) := by
  rcases List.mem_map.mp h with ⟨r, hr, hrf⟩
  cases hrf
  exact ⟨hr, rfl⟩

lemma mem_trainFoldSet {K ifold f : Nat} :
    f ∈ trainFoldSet K ifold ↔ 1 ≤ f ∧ f ≤ K ∧ f ≠ ifold := by
  simp only [trainFoldSet, List.mem_filter, List.mem_map, List.mem_range,
    decide_eq_true_eq]
  constructor
  · rintro ⟨⟨a, ha, rfl⟩, hne⟩
    exact ⟨by omega, by omega, hne⟩
  · rintro ⟨h1, h2, h3⟩
    exact ⟨⟨f - 1, by omega, by omega⟩, h3⟩

lemma foldOf_bound {K : Nat} (hK : 1 ≤ K) (lookup : List (Nat × Nat)) (p : Nat × Nat) :
    1 ≤ foldOf K lookup p ∧ foldOf K lookup p ≤ K := by
  unfold foldOf
  have := Nat.mod_lt (idxIn p (lookup.filter (fun q => decide (q.2 = p.2)))) (by omega : 0 < K)
  omega

lemma length_filter_pair {α : Type} (l : List α) (p q : α → Bool)
    (h : ∀ a ∈ l, p a = !q a) :
    (l.filter p).length + (l.filter q).length = l.length := by
  induction l with
  | nil => simp
  | cons a t ih =>
    have ha := h a (List.mem_cons_self a t)
    have ht := ih (fun b hb => h b (List.mem_cons_of_mem _ hb))
    rw [List.filter_cons, List.filter_cons]
    cases hq : q a with
    | true => rw [hq] at ha; simp only [ha]; simp; omega
    | false => rw [hq] at ha; simp only [ha]; simp; omega

lemma countP_range_eq_one :
    ∀ (K v : Nat), 1 ≤ v → v ≤ K →
      (List.range K).countP (fun j => decide (v = j + 1)) = 1 := by
  intro K
  induction K with
  | zero => intro v h1 h2; omega
  | succ n ih =>
    intro v h1 h2
    rw [List.range_succ, List.countP_append]
    by_cases hv : v = n + 1
    · have hz : (List.range n).countP (fun j => decide (v = j + 1)) = 0 := by
        rw [List.countP_eq_zero]
        intro a ha
        simp only [decide_eq_true_eq]
        have := List.mem_range.mp ha
        omega
      rw [hz, List.countP_cons]
      simp [hv]
    · have hvn : v ≤ n := by omega
      rw [ih v h1 hvn]
      simp [List.countP_cons, hv]

lemma sum_map_zero (js : List Nat) : (js.map (fun _ => (0 : Nat))).sum = 0 := by
  induction js with
  | nil => rfl
  | cons a t ih => simp [ih]

lemma sum_map_add (js : List Nat) (f g : Nat → Nat) :
    (js.map (fun j => f j + g j)).sum = (js.map f).sum + (js.map g).sum := by
  induction js with
  | nil => rfl
  | cons a t ih => simp [ih]; omega

lemma sum_map_ite_one (js : List Nat) (p : Nat → Prop) [DecidablePred p] :
    (js.map (fun j => if p j then 1 else 0)).sum = js.countP (fun j => decide (p j)) := by
  induction js with
  | nil => rfl
  | cons a t ih =>
    by_cases hp : p a <;> simp [List.countP_cons, hp, ih] <;> omega

lemma sum_test_lengths (js : List Nat) (l : List (Row × Nat)) :
    (js.map (fun j => (l.filter (fun rf => decide (rf.2 = j + 1))).length)).sum
      = (l.map (fun rf => js.countP (fun j => decide (rf.2 = j + 1)))).sum := by
  induction l with
  | nil => simp
  | cons rf l ih =>
    have hstep : ∀ j : Nat,
        ((rf :: l).filter (fun x => decide (x.2 = j + 1))).length
          = (if rf.2 = j + 1 then 1 else 0)
            + (l.filter (fun x => decide (x.2 = j + 1))).length := by
      intro j
      rw [List.filter_cons]
      by_cases h : rf.2 = j + 1 <;> simp [h] <;> omega
    calc (js.map (fun j => ((rf :: l).filter (fun x => decide (x.2 = j + 1))).length)).sum
        = (js.map (fun j => (if rf.2 = j + 1 then 1 else 0)
            + (l.filter (fun x => decide (x.2 = j + 1))).length)).sum := by
          rw [List.map_congr_left (fun j _ => hstep j)]
      _ = (js.map (fun j => if rf.2 = j + 1 then 1 else 0)).sum
            + (js.map (fun j => (l.filter (fun x => decide (x.2 = j + 1))).length)).sum :=
          sum_map_add js _ _
      _ = js.countP (fun j => decide (rf.2 = j + 1))
            + (l.map (fun x => js.countP (fun j => decide (x.2 = j + 1)))).sum := by
          rw [sum_map_ite_one, ih]
      _ = ((rf :: l).map (fun x => js.countP (fun j => decide (x.2 = j + 1)))).sum := by
          simp

lemma sum_map_all_one (l : List (Row × Nat)) (f : Row × Nat → Nat)
    (h : ∀ a ∈ l, f a = 1) : (l.map f).sum = l.length := by
  induction l with
  | nil => rfl
  | cons a t ih =>
    have := h a (List.mem_cons_self a t)
    simp [this, ih (fun b hb => h b (List.mem_cons_of_mem _ hb))]
    omega

lemma countP_idxIn :
    ∀ (l : List (Nat × Nat)), l.Nodup → ∀ (P : Nat → Bool),
      l.countP (fun p => P (idxIn p l)) = (List.range l.length).countP P := by
  intro l
  induction l with
  | nil => intro _ P; rfl
  | cons a t ih =>
    intro hnd P
    have ha : a ∉ t := (List.nodup_cons.mp hnd).1
    have hnt : t.Nodup := (List.nodup_cons.mp hnd).2
    have h0 : idxIn a (a :: t) = 0 := by simp [idxIn]
    have hcongr : t.countP (fun p => P (idxIn p (a :: t)))
        = t.countP (fun p => P (idxIn p t + 1)) := by
      apply List.countP_congr
      intro p hp
      have hap : a ≠ p := fun h => ha (h ▸ hp)
      simp [idxIn, hap]
    have hih : t.countP (fun p => P (idxIn p t + 1))
        = (List.range t.length).countP (fun i => P (i + 1)) :=
      ih hnt (fun i => P (i + 1))
    have hmap : (List.range (t.length + 1)).countP P
        = (List.range t.length).countP (fun i => P (i + 1))
          + if P 0 then 1 else 0 := by
      rw [List.range_succ_eq_map, List.countP_cons, List.countP_map]
      have hc2 : (List.range t.length).countP (P ∘ Nat.succ)
          = (List.range t.length).countP (fun i => P (i + 1)) := by
        apply List.countP_congr
        intro x _
        simp [Function.comp]
      rw [hc2]
    calc (a :: t).countP (fun p => P (idxIn p (a :: t)))
        = t.countP (fun p => P (idxIn p (a :: t)))
          + if P (idxIn a (a :: t)) then 1 else 0 := by
          simp [List.countP_cons]
      _ = (List.range t.length).countP (fun i => P (i + 1))
          + if P 0 then 1 else 0 := by
          rw [hcongr, hih, h0]
      _ = (List.range (a :: t).length).countP P := by
          rw [List.length_cons, hmap]

lemma succ_mod_div (N K : Nat) (hK : 0 < K) :
    (N % K + 1 < K → (N + 1) % K = N % K + 1 ∧ (N + 1) / K = N / K) ∧
    (N % K + 1 = K → (N + 1) % K = 0 ∧ (N + 1) / K = N / K + 1) := by
  have hdm : K * (N / K) + N % K = N := Nat.div_add_mod N K
  constructor
  · intro hlt
    have h1 : N + 1 = (N % K + 1) + K * (N / K) := by omega
    constructor
    · rw [h1, Nat.add_mul_mod_self_left, Nat.mod_eq_of_lt hlt]
    · rw [h1, Nat.add_mul_div_left _ _ hK, Nat.div_eq_of_lt hlt, Nat.zero_add]
  · intro heq
    have h1 : N + 1 = K * (N / K + 1) := by
      have : K * (N / K + 1) = K * (N / K) + K := by ring
      omega
    constructor
    · rw [h1, Nat.mul_mod_right]
    · rw [h1, Nat.mul_div_cancel_left _ hK]

lemma countRangeMod (K j : Nat) (hK : 0 < K) (hjK : j < K) :
    ∀ N : Nat, (List.range N).countP (fun i => decide (i % K = j))
      = N / K + if j < N % K then 1 else 0 := by
  intro N
  induction N with
  | zero => simp [Nat.zero_div, Nat.zero_mod]
  | succ n ih =>
    rw [List.range_succ, List.countP_append, ih]
    have hsub := succ_mod_div n K hK
    have hrK : n % K < K := Nat.mod_lt _ hK
    by_cases hc : n % K + 1 = K
    · obtain ⟨hm, hd⟩ := hsub.2 hc
      rw [hm, hd]
      simp only [List.countP_cons, List.countP_nil, decide_eq_true_eq, Nat.zero_add]
      split_ifs <;> omega
    · obtain ⟨hm, hd⟩ := hsub.1 (by omega)
      rw [hm, hd]
      simp only [List.countP_cons, List.countP_nil, decide_eq_true_eq, Nat.zero_add]
      split_ifs <;> omega

lemma ceil_div_of_mod_ne_zero (N K : Nat) (hK : 0 < K) (hr : N % K ≠ 0) :
    (N + K - 1) / K = N / K + 1 := by
  have hdm : K * (N / K) + N % K = N := Nat.div_add_mod N K
  have hrK : N % K < K := Nat.mod_lt _ hK
  have h1 : N + K - 1 = (N % K - 1) + K * (N / K + 1) := by
    have : K * (N / K + 1) = K * (N / K) + K := by ring
    omega
  rw [h1, Nat.add_mul_div_left _ _ hK, Nat.div_eq_of_lt (by omega), Nat.zero_add]

lemma orchestrate_length (o : Orchestrator)
    (reps : List (List (List (Row × Nat) × List (Row × Nat))))
    (h : orchestrate o = some reps) : reps.length = o.repeats := by
  unfold orchestrate orchestratorShuffles randomSample at h
  by_cases hc : o.repeats ≤ 1000
  · rw [if_pos hc] at h
    simp only [Option.map_some'] at h
    cases h
    simp
  · rw [if_neg hc] at h
    simp at h

/-- C1: for every fold produced by the splitter, no (county_fip,
state_code) group key occurs in both the train and the test subset of that
fold, and any two rows with the same group key receive the same fold
number. -/
theorem c1_group_integrity (K : Nat) (rows : List Row) :
    (∀ split ∈ kfoldSplits K rows, ∀ rf1 ∈ split.1, ∀ rf2 ∈ split.2,
      rowKey rf1.1 ≠ rowKey rf2.1) ∧
    (∀ rf1 ∈ mergedData K rows, ∀ rf2 ∈ mergedData K rows,
      rowKey rf1.1 = rowKey rf2.1 → rf1.2 = rf2.2) := by
  have hsame : ∀ rf1 ∈ mergedData K rows, ∀ rf2 ∈ mergedData K rows,
      rowKey rf1.1 = rowKey rf2.1 → rf1.2 = rf2.2 := by
    intro rf1 h1 rf2 h2 hk
    rw [(mem_mergedData h1).2, (mem_mergedData h2).2, hk]
  refine ⟨?_, hsame⟩
  intro split hsplit rf1 h1 rf2 h2 hk
  rcases List.mem_map.mp hsplit with ⟨j, _, hj⟩
  cases hj
  rw [trainRows, List.mem_filter] at h1
  rw [testRows, List.mem_filter] at h2
  have htr : rf1.2 ∈ trainFoldSet K (j + 1) := by
    have := h1.2
    simpa using this
  have hte : rf2.2 = j + 1 := by
    have := h2.2
    simpa using this
  have hne : rf1.2 ≠ j + 1 := (mem_trainFoldSet.mp htr).2.2
  exact hne ((hsame rf1 h1.1 rf2 h2.1 hk).trans hte)

/-- C1 witness: with two counties of one state and K = 2, the train row of
fold 1 and the test row of fold 1 carry different group keys. -/
theorem c1_group_integrity_witness :
    rowKey (sampleRow 2 1 16 none) ≠ rowKey (sampleRow 1 1 9 none) :=
  (c1_group_integrity 2 twoRowFrame).1
    (trainRows 2 twoRowFrame 1, testRows 2 twoRowFrame 1) (by decide)
    (sampleRow 2 1 16 none, 2) (by decide)
    (sampleRow 1 1 9 none, 1) (by decide)

/-- C2: for every fold f in 1..K, the train row count plus the test row
count equals the total row count; the K test subsets have lengths summing
to the total; and every merged row is the test row of exactly one fold
number in 1..K. -/
theorem c2_completeness (K : Nat) (rows : List Row) (hK : 1 ≤ K) :
    (∀ ifold, 1 ≤ ifold → ifold ≤ K →
      (trainRows K rows ifold).length + (testRows K rows ifold).length
        = rows.length) ∧
    ((List.range K).map (fun j => (testRows K rows (j + 1)).length)).sum
      = rows.length ∧
    (∀ rf ∈ mergedData K rows,
      ((List.range K).filter (fun j => decide (rf.2 = j + 1))).length = 1) := by
  have hbound : ∀ rf ∈ mergedData K rows, 1 ≤ rf.2 ∧ rf.2 ≤ K := by
    intro rf h
    rw [(mem_mergedData h).2]
    exact foldOf_bound hK _ _
  have hone : ∀ rf ∈ mergedData K rows,
      ((List.range K).filter (fun j => decide (rf.2 = j + 1))).length = 1 := by
    intro rf h
    rw [← List.countP_eq_length_filter]
    exact countP_range_eq_one K rf.2 (hbound rf h).1 (hbound rf h).2
  refine ⟨?_, ?_, hone⟩
  · intro ifold h1 h2
    have hcompl : ∀ rf ∈ mergedData K rows,
        (fun rf : Row × Nat => decide (rf.2 ∈ trainFoldSet K ifold)) rf
          = !((fun rf : Row × Nat => decide (rf.2 = ifold)) rf) := by
      intro rf h
      by_cases he : rf.2 = ifold
      · have hno : ¬ ifold ∈ trainFoldSet K ifold :=
          fun hc => (mem_trainFoldSet.mp hc).2.2 rfl
        simp [he, hno]
      · have hyes : rf.2 ∈ trainFoldSet K ifold :=
          mem_trainFoldSet.mpr ⟨(hbound rf h).1, (hbound rf h).2, he⟩
        simp [he, hyes]
    calc (trainRows K rows ifold).length + (testRows K rows ifold).length
        = (mergedData K rows).length := length_filter_pair _ _ _ hcompl
      _ = rows.length := by simp [mergedData]
  · show ((List.range K).map (fun j =>
        ((mergedData K rows).filter (fun rf => decide (rf.2 = j + 1))).length)).sum
      = rows.length
    rw [sum_test_lengths]
    have hcnt : ∀ rf ∈ mergedData K rows,
        (fun rf : Row × Nat =>
          (List.range K).countP (fun j => decide (rf.2 = j + 1))) rf = 1 :=
      fun rf h => countP_range_eq_one K rf.2 (hbound rf h).1 (hbound rf h).2
    rw [sum_map_all_one _ _ hcnt]
    simp [mergedData]

/-- C2 witness: on the two-row frame with K = 2, fold 1 has one train and
one test row, together the whole frame. -/
theorem c2_completeness_witness :
    (trainRows 2 twoRowFrame 1).length + (testRows 2 twoRowFrame 1).length
      = twoRowFrame.length :=
  (c2_completeness 2 twoRowFrame (by decide)).1 1 (by decide) (by decide)

/-- C3: two orchestrations over identical (data, folds, repeats, seed)
produce the identical sequence of fold contents, and a successful
orchestration yields exactly `repeats` repeats, in order. -/
theorem c3_determinism (o1 o2 : Orchestrator) (hd : o1.data = o2.data)
    (hf : o1.folds = o2.folds) (hr : o1.repeats = o2.repeats)
    (hs : o1.seed = o2.seed) :
    orchestrate o1 = orchestrate o2 ∧
    (∀ reps, orchestrate o1 = some reps → reps.length = o1.repeats) := by
  obtain ⟨d1, f1, r1, s1⟩ := o1
  obtain ⟨d2, f2, r2, s2⟩ := o2
  simp only at hd hf hr hs
  subst hd
  subst hf
  subst hr
  subst hs
  exact ⟨rfl, fun reps h => orchestrate_length _ reps h⟩

/-- C3 witness: the orchestration of a concrete configuration equals
itself, through the determinism theorem. -/
theorem c3_determinism_witness :
    orchestrate (mkOrchestrator twoRowFrame 2 1 0)
      = orchestrate (mkOrchestrator twoRowFrame 2 1 0) :=
  (c3_determinism (mkOrchestrator twoRowFrame 2 1 0)
    (mkOrchestrator twoRowFrame 2 1 0) rfl rfl rfl rfl).1

/-- A concrete three-row frame: three counties of one state. -/
def threeRowFrame : List Row :=
  [sampleRow 1 1 9 none, sampleRow 2 1 9 none, sampleRow 3 1 9 none]

/-- C4: within any stratum `st` holding N distinct groups, every fold
number f in 1..K receives either floor(N/K) or ceil(N/K) of that stratum's
groups under the round-robin assignment of the fold lookup. -/
theorem c4_balance_bound (K : Nat) (rows : List Row) (st f : Nat)
    (hK : 1 ≤ K) (hf1 : 1 ≤ f) (hfK : f ≤ K) :
    (((lookupPairs rows).filter (fun q => decide (q.2 = st))).filter
        (fun p => decide (foldOf K (lookupPairs rows) p = f))).length
      = ((lookupPairs rows).filter (fun q => decide (q.2 = st))).length / K ∨
    (((lookupPairs rows).filter (fun q => decide (q.2 = st))).filter
        (fun p => decide (foldOf K (lookupPairs rows) p = f))).length
      = (((lookupPairs rows).filter (fun q => decide (q.2 = st))).length
          + K - 1) / K := by
  set L := lookupPairs rows with hL
  set S := L.filter (fun q => decide (q.2 = st)) with hS
  have hSnd : S.Nodup := List.Nodup.filter _ (nodup_lookupPairs rows)
  have hfoldS : ∀ p ∈ S, foldOf K L p = idxIn p S % K + 1 := by
    intro p hp
    have hp2 : p.2 = st := by
      have := (List.mem_filter.mp hp).2
      simpa using this
    unfold foldOf
    have hfe : L.filter (fun q => decide (q.2 = p.2)) = S := by
      rw [hS, hp2]
    rw [hfe]
  have h1 : (S.filter (fun p => decide (foldOf K L p = f))).length
      = S.countP (fun p => decide (idxIn p S % K + 1 = f)) := by
    rw [← List.countP_eq_length_filter]
    apply List.countP_congr
    intro p hp
    simp [hfoldS p hp]
  have h2 : S.countP (fun p => decide (idxIn p S % K + 1 = f))
      = (List.range S.length).countP (fun i => decide (i % K + 1 = f)) :=
    countP_idxIn S hSnd (fun i => decide (i % K + 1 = f))
  have h3 : (List.range S.length).countP (fun i => decide (i % K + 1 = f))
      = (List.range S.length).countP (fun i => decide (i % K = f - 1)) := by
    apply List.countP_congr
    intro i _
    simp only [decide_eq_true_eq]
    omega
  have h4 := countRangeMod K (f - 1) (by omega) (by omega) S.length
  by_cases hlt : f - 1 < S.length % K
  · right
    have hne : S.length % K ≠ 0 := by omega
    rw [h1, h2, h3, h4, if_pos hlt,
      ceil_div_of_mod_ne_zero S.length K (by omega) hne]
  · left
    rw [h1, h2, h3, h4, if_neg hlt]
    omega

/-- C4 witness: one state with three counties and K = 2; fold 1 receives
2 = ceil(3/2) of the stratum's groups. -/
theorem c4_balance_bound_witness :
    (((lookupPairs threeRowFrame).filter (fun q => decide (q.2 = 1))).filter
        (fun p => decide (foldOf 2 (lookupPairs threeRowFrame) p = 1))).length
      = ((lookupPairs threeRowFrame).filter (fun q => decide (q.2 = 1))).length / 2 ∨
    (((lookupPairs threeRowFrame).filter (fun q => decide (q.2 = 1))).filter
        (fun p => decide (foldOf 2 (lookupPairs threeRowFrame) p = 1))).length
      = (((lookupPairs threeRowFrame).filter (fun q => decide (q.2 = 1))).length
          + 2 - 1) / 2 :=
  c4_balance_bound 2 threeRowFrame 1 1 (by decide) (by decide) (by decide)

/-- C5 (code evaluated at the failing input): on a view of two rows with
populations 9 and 16, the torch variant computes sqrt(pop)/sqrt(sum pop),
giving weights [3/5, 4/5] that sum to 7/5, not 1; the sklearn twin divides
by the sum of the square roots, as the claim states, and its weights sum
to 1.  `sqrtTable` is a genuine square root on every value involved. -/
theorem c5_weight_bug_torch :
    (mkABTDatasetTorch sqrtTable twoRowFrame).zmat = [3/5, 4/5] ∧
    ((mkABTDatasetTorch sqrtTable twoRowFrame).zmat).sum = 7/5 ∧
    ((mkABTDatasetSklearn sqrtTable twoRowFrame).zmat).sum = 1 ∧
    IsSqrtOn sqrtTable [9, 16, 25] := by
  refine ⟨?_, ?_, ?_, ?_⟩
  · norm_num [mkABTDatasetTorch, twoRowFrame, sampleRow, imputeRow, sqrtTable]
  · norm_num [mkABTDatasetTorch, twoRowFrame, sampleRow, imputeRow, sqrtTable]
  · norm_num [mkABTDatasetSklearn, twoRowFrame, sampleRow, imputeRow, sqrtTable]
  · intro x hx
    fin_cases hx <;> norm_num [sqrtTable]

/-- C6 (code evaluated at the failing input): on a two-row view, the
sklearn variant's `__getitem__` at index 0 returns the whole matrices —
its feature component has 2 rows, not the single row the claim requires —
while `len` is the row count and the torch variant returns row 0's
(x, y, w) triple. -/
theorem c6_getitem_bug :
    (mkABTDatasetSklearn sqrtTable twoRowFrame).getitemSklearn 0
      = ((mkABTDatasetSklearn sqrtTable twoRowFrame).xmat,
         (mkABTDatasetSklearn sqrtTable twoRowFrame).ymat,
         (mkABTDatasetSklearn sqrtTable twoRowFrame).zmat) ∧
    ((mkABTDatasetSklearn sqrtTable twoRowFrame).getitemSklearn 0).1.length = 2 ∧
    (mkABTDatasetSklearn sqrtTable twoRowFrame).len = 2 ∧
    (mkABTDatasetTorch sqrtTable twoRowFrame).getitemTorch 0
      = (featureRow (imputeRow (sampleRow 1 1 9 none)), (none, none), 3/5) := by
  refine ⟨rfl, rfl, rfl, ?_⟩
  norm_num [mkABTDatasetTorch, ABTDataset.getitemTorch, twoRowFrame,
    sampleRow, imputeRow, sqrtTable, featureRow]

/-- C7: in every materialized view, a row with missing infection_momentum
receives exactly 1 in the feature matrix; a present momentum and every
other feature, target and weight-source value pass through unaltered. -/
theorem c7_imputation (s : ℚ → ℚ) (rows : List Row) (r : Row) :
    (mkABTDatasetTorch s rows).data = rows.map imputeRow ∧
    (mkABTDatasetSklearn s rows).data = rows.map imputeRow ∧
    (mkABTDatasetTorch s rows).xmat
      = rows.map (fun q => featureRow (imputeRow q)) ∧
    (mkABTDatasetTorch s rows).ymat
      = rows.map (fun q => (q.infection_target, q.unemployment_target)) ∧
    (mkABTDatasetTorch s rows).zmat
      = rows.map (fun q =>
          s q.acs_pop_total / s ((rows.map Row.acs_pop_total).sum)) ∧
    (r.infection_momentum = none → (imputeRow r).infection_momentum = some 1) ∧
    (∀ v, r.infection_momentum = some v →
      (imputeRow r).infection_momentum = some v) ∧
    (imputeRow r).county_fip = r.county_fip ∧
    (imputeRow r).state_code = r.state_code ∧
    (imputeRow r).acs_pop_total = r.acs_pop_total ∧
    (imputeRow r).travel_limit = r.travel_limit ∧
    (imputeRow r).stay_home = r.stay_home ∧
    (imputeRow r).educational_fac = r.educational_fac ∧
    (imputeRow r).phase_1 = r.phase_1 ∧
    (imputeRow r).phase_2 = r.phase_2 ∧
    (imputeRow r).phase_3 = r.phase_3 ∧
    (imputeRow r).tmpf_mean = r.tmpf_mean ∧
    (imputeRow r).relh_mean = r.relh_mean ∧
    (imputeRow r).male_proportion = r.male_proportion ∧
    (imputeRow r).percentage_white = r.percentage_white ∧
    (imputeRow r).young_age = r.young_age ∧
    (imputeRow r).mid_age = r.mid_age ∧
    (imputeRow r).old_age = r.old_age ∧
    (imputeRow r).infection_penetration = r.infection_penetration ∧
    (imputeRow r).unemployment_rate = r.unemployment_rate ∧
    (imputeRow r).unemployment_penetration = r.unemployment_penetration ∧
    (imputeRow r).infection_target = r.infection_target ∧
    (imputeRow r).unemployment_target = r.unemployment_target := by
  refine ⟨rfl, rfl, ?_, ?_, ?_, ?_, ?_, rfl, rfl, rfl, rfl, rfl, rfl, rfl,
    rfl, rfl, rfl, rfl, rfl, rfl, rfl, rfl, rfl, rfl, rfl, rfl, rfl, rfl⟩
  · show (rows.map imputeRow).map featureRow
        = rows.map (fun q => featureRow (imputeRow q))
    rw [List.map_map]
    rfl
  · show (rows.map imputeRow).map
          (fun r => (r.infection_target, r.unemployment_target))
        = rows.map (fun q => (q.infection_target, q.unemployment_target))
    rw [List.map_map]
    rfl
  · show (rows.map imputeRow).map
          (fun r => s r.acs_pop_total
            / s (((rows.map imputeRow).map Row.acs_pop_total).sum))
        = rows.map (fun q =>
            s q.acs_pop_total / s ((rows.map Row.acs_pop_total).sum))
    simp only [List.map_map]
    rfl
  · intro h
    simp [imputeRow, h]
  · intro v hv
    simp [imputeRow, hv]

/-- C7 witness: a row with missing momentum is imputed to 1. -/
theorem c7_imputation_witness :
    (imputeRow (sampleRow 1 1 9 none)).infection_momentum = some 1 :=
  (c7_imputation sqrtTable twoRowFrame (sampleRow 1 1 9 none)).2.2.2.2.2.1 rfl

/-- C8: the repeat sub-seeds come from the fixed pool range(1000) drawn
without replacement; iteration yields exactly R repeats when R ≤ 1000 and
fails before yielding any repeat when R > 1000. -/
theorem c8_subseed_pool (o : Orchestrator) :
    (o.repeats ≤ 1000 →
      ∃ reps, orchestrate o = some reps ∧ reps.length = o.repeats) ∧
    (1000 < o.repeats → orchestrate o = none) := by
  constructor
  · intro h
    unfold orchestrate orchestratorShuffles randomSample
    rw [if_pos h]
    simp only [Option.map_some']
    exact ⟨_, rfl, by simp⟩
  · intro h
    unfold orchestrate orchestratorShuffles randomSample
    rw [if_neg (by omega)]
    rfl

/-- C8 witness: a 3-repeat orchestration succeeds with exactly 3 repeats. -/
theorem c8_subseed_pool_witness :
    ∃ reps, orchestrate (mkOrchestrator twoRowFrame 2 3 0) = some reps ∧
      reps.length = 3 :=
  (c8_subseed_pool (mkOrchestrator twoRowFrame 2 3 0)).1 (by decide)

/-- C9 counterexample: constructing the orchestrator with folds = 1 < 2
and repeats = 0 < 1 does not fail — `__init__` stores the fields with no
validation — and iterating it silently yields zero repeats instead of
raising, contradicting fail-fast construction. -/
theorem c9_no_validation_counterexample :
    mkOrchestrator twoRowFrame 1 0 0
      = { data := twoRowFrame, folds := 1, repeats := 0, seed := 0 } ∧
    orchestrate (mkOrchestrator twoRowFrame 1 0 0) = some [] := by
  exact ⟨rfl, rfl⟩

/-- C9 amended: construction stores any configuration without validation
(K < 2, R < 1 and arbitrary frames are accepted), and R = 0 makes
iteration silently yield an empty sequence of repeats rather than fail at
construction time. -/
theorem c9_construction_no_failfast (data : List Row) (folds repeats seed : Nat) :
    mkOrchestrator data folds repeats seed
      = { data := data, folds := folds, repeats := repeats, seed := seed } ∧
    (repeats = 0 →
      orchestrate (mkOrchestrator data folds repeats seed) = some []) := by
  refine ⟨rfl, ?_⟩
  intro h
  subst h
  rfl

/-- C9 amended witness: folds = 1, repeats = 0 constructs fine and yields
no repeats. -/
theorem c9_construction_no_failfast_witness :
    orchestrate (mkOrchestrator twoRowFrame 1 0 0) = some [] :=
  (c9_construction_no_failfast twoRowFrame 1 0 0).2 rfl

/-- C10 counterexample: iterating the torch orchestrator overwrites the
process-global generator state, and view construction writes the imputed
momentum column into the frame it was given — observable state changes
outside the operation's own outputs, contradicting purity. -/
theorem c10_purity_counterexample :
    orchestratorIterGlobals (mkOrchestrator twoRowFrame 2 1 7)
        ⟨none, none, none⟩ ≠ ⟨none, none, none⟩ ∧
    abtFrameAfterInit [sampleRow 1 1 9 none] ≠ [sampleRow 1 1 9 none] := by
  decide

/-- C10 amended: the fold computations are pure functions of their inputs,
but iterating the orchestrator reseeds the global torch, numpy and python
generators to the orchestrator's seed, and view construction imputes the
momentum column in place on the (copied) frame it receives; the imputation
leaves the group and stratum keys of every row unchanged. -/
theorem c10_side_effects (o : Orchestrator) (g : GlobalRNG) (rows : List Row) :
    orchestratorIterGlobals o g
      = { torchSeed := some o.seed, npSeed := some o.seed,
          pySeed := some o.seed } ∧
    abtFrameAfterInit rows = rows.map imputeRow ∧
    (abtFrameAfterInit rows).map rowKey = rows.map rowKey := by
  refine ⟨rfl, rfl, ?_⟩
  rw [abtFrameAfterInit, List.map_map]
  rfl
